import Mathlib

/-!
Verification of the OAGW (Outbound API Gateway) specification against a
shallow embedding of the repository's Rust sources.

The embedding covers:
* the domain error taxonomy and its RFC 9457 Problem Details surface
  (`src/modules/system/oagw/oagw/src/api/rest/error.rs`),
* the pagination extractor
  (`src/modules/system/oagw/oagw/src/api/rest/extractors.rs`),
* alias derivation from endpoints
  (`src/modules/system/oagw/oagw/src/domain/dto.rs`),
* GTS identifier formatting and parsing
  (`src/modules/system/oagw/oagw/src/domain/gts_helpers.rs`),
* secret redaction (`src/modules/system/oagw/oagw/src/domain/credential.rs`),
* the client's error-source header parser
  (`src/modules/system/oagw/oagw-client-prototype/src/remote_proxy.rs`).

Strings are modelled as Lean `String`/`List Char`; Rust byte indices into
UTF-8 strings are handled at character granularity, which is faithful for the
functions embedded here (the only index used, the position of an ASCII `'~'`,
is always a character boundary).  Machine integers (`u16`, `u32`, `u64`,
`u128`) are modelled as `Nat`; none of the embedded code can overflow them,
and where a bound matters it appears as an explicit hypothesis.
-/

namespace Oagw

-- ===========================================================================
-- Domain error model (`domain/error.rs`, reconstructed from its exhaustive
-- uses in `api/rest/error.rs` and `domain/services/client.rs`)
-- ===========================================================================

/-- `DomainError` from `crate::domain::error`.  The enum declaration file is
not under `src/`, but its variants and fields are pinned exactly by the
exhaustive matches in `api/rest/error.rs` (`gts_type`, `http_status`, `title`,
`instance`, tests) and `domain/services/client.rs` (`domain_err_to_sdk`).
`retry_after_secs: Option<u64>` is modelled as `Option Nat`, `Uuid` as `Nat`
(the 128-bit value). -/
inductive DomainError where
  | Validation (detail : String) (instance_ : String)
  | Conflict (detail : String)
  | MissingTargetHost (instance_ : String)
  | InvalidTargetHost (instance_ : String)
  | UnknownTargetHost (detail : String) (instance_ : String)
  | AuthenticationFailed (detail : String) (instance_ : String)
  | NotFound (entity : String) (id : Nat)
  | PayloadTooLarge (detail : String) (instance_ : String)
  | RateLimitExceeded (detail : String) (instance_ : String)
      (retry_after_secs : Option Nat)
  | SecretNotFound (detail : String) (instance_ : String)
  | DownstreamError (detail : String) (instance_ : String)
  | ProtocolError (detail : String) (instance_ : String)
  | UpstreamDisabled (alias_ : String)
  | ConnectionTimeout (detail : String) (instance_ : String)
  | RequestTimeout (detail : String) (instance_ : String)
  | Internal (message : String)
  deriving DecidableEq, Repr

-- ===========================================================================
-- RFC 9457 Problem Details (`api/rest/error.rs`)
-- ===========================================================================

/-- `ProblemDetails` from `api/rest/error.rs`.  The Rust field `error_type`
is serialized under the JSON key `"type"` (serde rename); `status` is a
`u16`, modelled as `Nat`. -/
structure ProblemDetails where
  error_type : String
  title : String
  status : Nat
  detail : String
  instance_ : String
  deriving DecidableEq, Repr

/-- GTS error type constants from `api/rest/error.rs`. -/
def ERR_VALIDATION : String := "gts.x.core.errors.err.v1~x.oagw.validation.error.v1"

def ERR_MISSING_TARGET_HOST : String :=
  "gts.x.core.errors.err.v1~x.oagw.routing.missing_target_host.v1"

def ERR_INVALID_TARGET_HOST : String :=
  "gts.x.core.errors.err.v1~x.oagw.routing.invalid_target_host.v1"

def ERR_UNKNOWN_TARGET_HOST : String :=
  "gts.x.core.errors.err.v1~x.oagw.routing.unknown_target_host.v1"

def ERR_AUTH_FAILED : String := "gts.x.core.errors.err.v1~x.oagw.auth.failed.v1"

def ERR_ROUTE_NOT_FOUND : String := "gts.x.core.errors.err.v1~x.oagw.route.not_found.v1"

def ERR_PAYLOAD_TOO_LARGE : String :=
  "gts.x.core.errors.err.v1~x.oagw.payload.too_large.v1"

def ERR_RATE_LIMIT_EXCEEDED : String :=
  "gts.x.core.errors.err.v1~x.oagw.rate_limit.exceeded.v1"

def ERR_SECRET_NOT_FOUND : String :=
  "gts.x.core.errors.err.v1~x.oagw.secret.not_found.v1"

def ERR_DOWNSTREAM : String := "gts.x.core.errors.err.v1~x.oagw.downstream.error.v1"

def ERR_PROTOCOL : String := "gts.x.core.errors.err.v1~x.oagw.protocol.error.v1"

def ERR_UPSTREAM_DISABLED : String :=
  "gts.x.core.errors.err.v1~x.oagw.routing.upstream_disabled.v1"

def ERR_CONNECTION_TIMEOUT : String :=
  "gts.x.core.errors.err.v1~x.oagw.timeout.connection.v1"

def ERR_REQUEST_TIMEOUT : String :=
  "gts.x.core.errors.err.v1~x.oagw.timeout.request.v1"

/-- `gts_type` from `api/rest/error.rs`. -/
def gts_type (err : DomainError) : String :=
  match err with
  | .Validation .. | .Conflict .. => ERR_VALIDATION
  | .MissingTargetHost .. => ERR_MISSING_TARGET_HOST
  | .InvalidTargetHost .. => ERR_INVALID_TARGET_HOST
  | .UnknownTargetHost .. => ERR_UNKNOWN_TARGET_HOST
  | .AuthenticationFailed .. => ERR_AUTH_FAILED
  | .NotFound .. => ERR_ROUTE_NOT_FOUND
  | .PayloadTooLarge .. => ERR_PAYLOAD_TOO_LARGE
  | .RateLimitExceeded .. => ERR_RATE_LIMIT_EXCEEDED
  | .SecretNotFound .. => ERR_SECRET_NOT_FOUND
  | .DownstreamError .. | .Internal .. => ERR_DOWNSTREAM
  | .ProtocolError .. => ERR_PROTOCOL
  | .UpstreamDisabled .. => ERR_UPSTREAM_DISABLED
  | .ConnectionTimeout .. => ERR_CONNECTION_TIMEOUT
  | .RequestTimeout .. => ERR_REQUEST_TIMEOUT

/-- `http_status` from `api/rest/error.rs`. -/
def http_status (err : DomainError) : Nat :=
  match err with
  | .Validation .. | .Conflict .. | .MissingTargetHost ..
  | .InvalidTargetHost .. | .UnknownTargetHost .. => 400
  | .AuthenticationFailed .. => 401
  | .NotFound .. => 404
  | .PayloadTooLarge .. => 413
  | .RateLimitExceeded .. => 429
  | .SecretNotFound .. | .Internal .. => 500
  | .DownstreamError .. | .ProtocolError .. => 502
  | .UpstreamDisabled .. => 503
  | .ConnectionTimeout .. | .RequestTimeout .. => 504

/-- `title` from `api/rest/error.rs`. -/
def title (err : DomainError) : String :=
  match err with
  | .Validation .. | .Conflict .. => "Validation Error"
  | .MissingTargetHost .. => "Missing Target Host"
  | .InvalidTargetHost .. => "Invalid Target Host"
  | .UnknownTargetHost .. => "Unknown Target Host"
  | .AuthenticationFailed .. => "Authentication Failed"
  | .NotFound .. => "Route Not Found"
  | .PayloadTooLarge .. => "Payload Too Large"
  | .RateLimitExceeded .. => "Rate Limit Exceeded"
  | .SecretNotFound .. => "Secret Not Found"
  | .DownstreamError .. | .Internal .. => "Downstream Error"
  | .ProtocolError .. => "Protocol Error"
  | .UpstreamDisabled .. => "Upstream Disabled"
  | .ConnectionTimeout .. => "Connection Timeout"
  | .RequestTimeout .. => "Request Timeout"

/-- `instance` from `api/rest/error.rs`: the variants `NotFound`, `Conflict`,
`UpstreamDisabled` and `Internal` carry no instance URI and yield `""`. -/
def errInstance (err : DomainError) : String :=
  match err with
  | .Validation _ i | .MissingTargetHost i | .InvalidTargetHost i
  | .UnknownTargetHost _ i | .AuthenticationFailed _ i | .PayloadTooLarge _ i
  | .RateLimitExceeded _ i _ | .SecretNotFound _ i | .DownstreamError _ i
  | .ProtocolError _ i | .ConnectionTimeout _ i | .RequestTimeout _ i => i
  | .NotFound .. | .Conflict .. | .UpstreamDisabled .. | .Internal .. => ""

/-- Modelled from the spec: the `Display` implementation of `DomainError`
(`err.to_string()`, used for the Problem Details `detail` field) lives in
`domain/error.rs`, which is not under `src/`.  Per the spec, "Every domain
error carries a taxonomy kind, a detail string, and an instance URI"; the
rendering below passes the carried detail/message through.  No claim in this
development depends on the exact text. -/
def errDetail (err : DomainError) : String :=
  match err with
  | .Validation d _ | .Conflict d | .UnknownTargetHost d _
  | .AuthenticationFailed d _ | .PayloadTooLarge d _ | .RateLimitExceeded d _ _
  | .SecretNotFound d _ | .DownstreamError d _ | .ProtocolError d _
  | .ConnectionTimeout d _ | .RequestTimeout d _ => d
  | .MissingTargetHost _ => "missing target host"
  | .InvalidTargetHost _ => "invalid target host"
  | .NotFound entity _ => entity ++ " not found"
  | .UpstreamDisabled a => "upstream '" ++ a ++ "' is disabled"
  | .Internal m => m

/-- `to_problem_details` from `api/rest/error.rs`. -/
def to_problem_details (err : DomainError) : ProblemDetails :=
  { error_type := gts_type err
    title := title err
    status := http_status err
    detail := errDetail err
    instance_ := errInstance err }

-- ===========================================================================
-- Decimal and hexadecimal rendering (Rust `u64::to_string`, `uuid` hex)
-- ===========================================================================

/-- The character for the digit `d < 16`: `0`-`9` then lowercase `a`-`f`
(Rust digit rendering for decimal, and the lowercase hex used by
`uuid::fmt::Simple` and by `serde_json` unicode escapes). -/
def hexDigitChar (d : Nat) : Char :=
  if d < 10 then Char.ofNat (48 + d) else Char.ofNat (87 + d)

/-- Decimal rendering of a natural number, most significant digit first:
the semantics of Rust `to_string()` on unsigned integers. -/
def natDecimal (n : Nat) : List Char :=
  if _h : n < 10 then [hexDigitChar n]
  else natDecimal (n / 10) ++ [hexDigitChar (n % 10)]
termination_by n
decreasing_by exact Nat.div_lt_self (by omega) (by omega)

/-- Rust `to_string()` on an unsigned integer. -/
def natToString (n : Nat) : String := String.mk (natDecimal n)

/-- Fixed-width lowercase hexadecimal, most significant digit first:
`toHexPad 32 n` is the `uuid` crate's simple format of the 128-bit value
`n` (32 hex digits, zero-padded). -/
def toHexPad : Nat → Nat → List Char
  | 0, _ => []
  | k + 1, n => toHexPad k (n / 16) ++ [hexDigitChar (n % 16)]

/-- Value of a hexadecimal digit character, accepting both cases
(as the `uuid` parser and the JSON `\u` escape parser do). -/
def hexCharVal (c : Char) : Option Nat :=
  if 48 ≤ c.toNat ∧ c.toNat ≤ 57 then some (c.toNat - 48)
  else if 97 ≤ c.toNat ∧ c.toNat ≤ 102 then some (c.toNat - 87)
  else if 65 ≤ c.toNat ∧ c.toNat ≤ 70 then some (c.toNat - 55)
  else none

/-- Accumulating value of a list of hex digits. -/
def hexValAux (acc : Nat) : List Char → Option Nat
  | [] => some acc
  | c :: rest =>
    match hexCharVal c with
    | some d => hexValAux (16 * acc + d) rest
    | none => none

/-- Value of a list of hex digits, most significant first; `none` if any
character is not a hex digit. -/
def hexListVal (l : List Char) : Option Nat :=
  hexValAux 0 l

/-- ASCII decimal digit test (`b'0'..=b'9'`, as serde's number parser
checks). -/
def isDigitChar (c : Char) : Bool :=
  decide (48 ≤ c.toNat) && decide (c.toNat ≤ 57)

-- ===========================================================================
-- JSON serialization of Problem Details (`serde_json::to_string`)
-- ===========================================================================

/-- `serde_json`'s escaping of one character inside a JSON string: `"` and
`\` get a backslash escape, control characters below 0x20 get their short
escape (`\b \t \n \f \r`) or a `\u00XX` escape, everything else is emitted
verbatim. -/
def escChar (c : Char) : List Char :=
  if c = Char.ofNat 34 then [Char.ofNat 92, Char.ofNat 34]
  else if c = Char.ofNat 92 then [Char.ofNat 92, Char.ofNat 92]
  else if c.toNat < 32 then
    if c.toNat = 8 then [Char.ofNat 92, 'b']
    else if c.toNat = 9 then [Char.ofNat 92, 't']
    else if c.toNat = 10 then [Char.ofNat 92, 'n']
    else if c.toNat = 12 then [Char.ofNat 92, 'f']
    else if c.toNat = 13 then [Char.ofNat 92, 'r']
    else [Char.ofNat 92, 'u', '0', '0',
          hexDigitChar (c.toNat / 16), hexDigitChar (c.toNat % 16)]
  else [c]

/-- A JSON string literal: opening quote, escaped characters, closing
quote. -/
def jsonStr (s : List Char) : List Char :=
  Char.ofNat 34 :: (s.flatMap escChar ++ [Char.ofNat 34])

/-- `serde_json::to_string(&pd)` for a `ProblemDetails` value: the compact
rendering serde produces for the derived `Serialize`, with the fields in
declaration order and `error_type` under the key `"type"`
(`#[serde(rename = "type")]`). -/
def pdToJsonChars (pd : ProblemDetails) : List Char :=
  Char.ofNat 123 ::
    (jsonStr "type".data ++ ':' :: jsonStr pd.error_type.data ++
     ',' :: jsonStr "title".data ++ ':' :: jsonStr pd.title.data ++
     ',' :: jsonStr "status".data ++ ':' :: natDecimal pd.status ++
     ',' :: jsonStr "detail".data ++ ':' :: jsonStr pd.detail.data ++
     ',' :: jsonStr "instance".data ++ ':' :: jsonStr pd.instance_.data ++
     [Char.ofNat 125])

/-- `serde_json::to_string(&pd)` as a `String`. -/
def problemDetailsToJson (pd : ProblemDetails) : String :=
  String.mk (pdToJsonChars pd)

-- ===========================================================================
-- HTTP response model and `build_response` (`api/rest/error.rs`)
-- ===========================================================================

/-- The parts of an `axum::response::Response` the embedded code constructs
and the claims observe: status, headers (lowercase names, as the `http`
crate normalizes them) and body. -/
structure Response where
  status : Nat
  headers : List (String × String)
  body : String
  deriving DecidableEq, Repr

/-- `http::StatusCode::from_u16(n).unwrap_or(INTERNAL_SERVER_ERROR)`:
`from_u16` accepts 100..=999 and errors otherwise. -/
def statusCodeFromU16 (n : Nat) : Nat :=
  if 100 ≤ n ∧ n < 1000 then n else 500

/-- First header with the given (lowercase) name, as
`HeaderMap::get`. -/
def headerGet (hs : List (String × String)) (name : String) : Option String :=
  (hs.find? (fun p => p.1 == name)).map (fun p => p.2)

/-- `build_response` from `api/rest/error.rs`: status from the Problem
Details (through `StatusCode::from_u16`), `Content-Type:
application/problem+json`, `X-OAGW-Error-Source: gateway`, the serialized
Problem Details as body, and — only for `RateLimitExceeded` with
`retry_after_secs = Some(secs)` — a `Retry-After: secs` header (the
`secs.to_string().parse()` in the source always succeeds on a decimal
digit string). -/
def build_response (err : DomainError) (pd : ProblemDetails) : Response :=
  { status := statusCodeFromU16 pd.status
    headers :=
      [("content-type", "application/problem+json"),
       ("x-oagw-error-source", "gateway")] ++
      (match err with
       | .RateLimitExceeded _ _ (some secs) => [("retry-after", natToString secs)]
       | _ => [])
    body := problemDetailsToJson pd }

/-- `error_response` from `api/rest/error.rs`. -/
def error_response (err : DomainError) : Response :=
  build_response err (to_problem_details err)

/-- `domain_error_response` from `api/rest/error.rs`: injects the provided
instance URI for variants that do not carry their own. -/
def domain_error_response (err : DomainError) (instance_ : String) : Response :=
  let pd := to_problem_details err
  let pd :=
    if pd.instance_ = "" then
      { pd with instance_ := instance_ }
    else pd
  build_response err pd

-- ===========================================================================
-- Pagination (`api/rest/extractors.rs`, `domain/dto.rs`)
-- ===========================================================================

/-- `ListQuery` from `domain/dto.rs` (`top`, `skip` are `u32`). -/
structure ListQuery where
  top : Nat
  skip : Nat
  deriving DecidableEq, Repr

/-- `PaginationQuery` from `api/rest/extractors.rs` (`limit`, `offset` are
`u32`; `limit` defaults to 50, `offset` to 0 during deserialization). -/
structure PaginationQuery where
  limit : Nat
  offset : Nat
  deriving DecidableEq, Repr

/-- `PaginationQuery::to_list_query` from `api/rest/extractors.rs`:
`top = self.limit.min(100)`, `skip = self.offset`. -/
def to_list_query (q : PaginationQuery) : ListQuery :=
  { top := min q.limit 100
    skip := q.offset }

-- ===========================================================================
-- Endpoints and alias derivation (`domain/dto.rs`)
-- ===========================================================================

/-- `Scheme` from `domain/dto.rs`. -/
inductive Scheme where
  | Http | Https | Wss | Wt | Grpc
  deriving DecidableEq, Repr

/-- `Endpoint` from `domain/dto.rs` (`port` is a `u16`). -/
structure Endpoint where
  scheme : Scheme
  host : String
  port : Nat
  deriving DecidableEq, Repr

/-- `Endpoint::alias_contribution` from `domain/dto.rs`: the host when the
port is 443 or 80, otherwise `host:port`.  (No lowercasing here.) -/
def alias_contribution (e : Endpoint) : String :=
  if e.port = 443 ∨ e.port = 80 then e.host
  else e.host ++ ":" ++ natToString e.port

/-- Modelled from the spec: alias derivation lives in
`domain/services/management.rs`, which is not under `src/`; only its
collaborator `Endpoint::alias_contribution` is.  Per the spec (§4.2):
"Given the first endpoint: `host` if port is 80 or 443, else `host:port`.
Lowercased." — the derived alias is the first endpoint's contribution,
lowercased.  Lowercasing is modelled with `Char.toLower` (ASCII), adequate
for the DNS-label-like hosts the spec requires. -/
def derive_alias (e : Endpoint) : String :=
  String.mk ((alias_contribution e).data.map Char.toLower)

-- ===========================================================================
-- Secret redaction (`domain/credential.rs`)
-- ===========================================================================

/-- `SecretValue` from `domain/credential.rs`. -/
structure SecretValue where
  value : String
  deriving DecidableEq, Repr

/-- The `Display` implementation of `SecretValue`: it intentionally ignores
the wrapped value and writes `[REDACTED]`. -/
def secretDisplay (_ : SecretValue) : String := "[REDACTED]"

-- ===========================================================================
-- Error-source header parsing (`oagw-client-prototype/src/remote_proxy.rs`)
-- ===========================================================================

/-- `ErrorSource` from `oagw-client-prototype/src/error.rs`. -/
inductive ErrorSource where
  | Gateway | Upstream | Unknown
  deriving DecidableEq, Repr

/-- A header value is a byte sequence; a header map is an ordered list of
(lowercase-name, value) pairs, and `get` returns the first value for a
name — the observable behaviour of `http::HeaderMap` for the single-header
lookups the embedded code performs. -/
def HeaderBytes := List Nat

/-- `http::HeaderValue::to_str` succeeds iff every byte is visible ASCII
(32..=126) or horizontal tab. -/
def isVisibleAscii (b : Nat) : Bool :=
  (decide (32 ≤ b) && decide (b < 127)) || decide (b = 9)

/-- `HeaderValue::to_str().ok()`: the bytes as characters when they are all
visible ASCII, `none` otherwise. -/
def headerValueToStr (bytes : List Nat) : Option (List Char) :=
  if bytes.all isVisibleAscii then some (bytes.map Char.ofNat) else none

/-- `parse_error_source_header` from `remote_proxy.rs`:
`headers.get("x-oagw-error-source").and_then(to_str.ok).map(lowercase
match).unwrap_or(Unknown)`.  Rust's `str::to_lowercase` agrees with
per-character ASCII lowercasing on visible-ASCII input, which is all
`to_str` can produce. -/
def parse_error_source_header (headers : List (String × List Nat)) : ErrorSource :=
  ((((headers.find? (fun p => p.1 == "x-oagw-error-source")).map (fun p => p.2)).bind
      headerValueToStr).map
    (fun s =>
      let l := s.map Char.toLower
      if l = "gateway".data then ErrorSource.Gateway
      else if l = "upstream".data then ErrorSource.Upstream
      else ErrorSource.Unknown)).getD ErrorSource.Unknown

-- ===========================================================================
-- GTS identifiers (`domain/gts_helpers.rs`)
-- ===========================================================================

/-- `UPSTREAM_SCHEMA` from `gts_helpers.rs`. -/
def UPSTREAM_SCHEMA : String := "gts.x.core.oagw.upstream.v1~"

/-- `ROUTE_SCHEMA` from `gts_helpers.rs`. -/
def ROUTE_SCHEMA : String := "gts.x.core.oagw.route.v1~"

/-- `format_upstream_gts` from `gts_helpers.rs`: the schema constant
followed by `id.simple()` — the 32-digit lowercase hex of the UUID. -/
def format_upstream_gts (id : Nat) : String :=
  String.mk (UPSTREAM_SCHEMA.data ++ toHexPad 32 id)

/-- `format_route_gts` from `gts_helpers.rs`. -/
def format_route_gts (id : Nat) : String :=
  String.mk (ROUTE_SCHEMA.data ++ toHexPad 32 id)

/-- `s.rfind('~')` at character granularity: the index of the last `'~'`,
or `none`.  (`'~'` is a one-byte character, so the byte index Rust returns
always sits on a character boundary and cuts the string at the same
place.) -/
def rfindTilde : List Char → Option Nat
  | [] => none
  | c :: rest =>
    match rfindTilde rest with
    | some i => some (i + 1)
    | none => if c = '~' then some 0 else none

/-- `parse_resource_gts` from `gts_helpers.rs`, parametric in the two
external validators it calls: `gts::GtsID::new` on the schema portion
(including the final `'~'`) and `uuid::Uuid::parse_str` on the instance
portion.  On success it returns the schema portion *without* the tilde and
the UUID.  The two external-failure branches format the external error into
the detail string in Rust; the detail text is not modelled beyond a fixed
message. -/
def parseResourceGtsWith (gtsValid : List Char → Bool)
    (uuidParseF : List Char → Option Nat) (s : List Char) :
    Except DomainError (List Char × Nat) :=
  match rfindTilde s with
  | none =>
    .error (.Validation "missing tilde separator in GTS identifier" (String.mk s))
  | some tilde_pos =>
    let schema_with_tilde := s.take (tilde_pos + 1)
    let inst := s.drop (tilde_pos + 1)
    if gtsValid schema_with_tilde then
      match uuidParseF inst with
      | some uuid => .ok (s.take tilde_pos, uuid)
      | none => .error (.Validation "invalid UUID in GTS instance" (String.mk s))
    else .error (.Validation "invalid GTS schema" (String.mk s))

/-- Modelled from the spec: schema validation is `gts::GtsID::new`, an
external crate not in this repository.  Per the spec (§3,
glossary), a GTS type is `gts.x.core.<ns>.<type>.v<n>` followed by `~`:
dot-separated non-empty segments of lowercase letters, digits and
underscores, the first being `gts`, the last a `v` plus digits, at least
three segments in all. -/
def gtsSchemaValid (l : List Char) : Bool :=
  match l.getLast? with
  | some c =>
    c = '~' &&
    (let segs := l.dropLast.splitOn '.'
     decide (3 ≤ segs.length) &&
     segs.all (fun seg =>
       !seg.isEmpty && seg.all (fun ch => ch.isLower || ch.isDigit || ch = '_')) &&
     (match segs.getLast? with
      | some ('v' :: ds) => !ds.isEmpty && ds.all Char.isDigit
      | _ => false) &&
     segs.head? = some "gts".data)
  | none => false

/-- Modelled from the spec: UUID instance parsing is `uuid::Uuid::parse_str`,
an external crate; the spec writes the instance as `<uuid-hex>`.  Modelled
as accepting the 32-hex-digit simple form and the hyphenated 8-4-4-4-12
form (either case), yielding the 128-bit value; other exotic `uuid` input
forms (URN, braced) are omitted — they never arise here. -/
def uuidParse (l : List Char) : Option Nat :=
  if l.length = 32 then hexListVal l
  else if l.length = 36 then
    let parts := l.splitOn '-'
    if parts.map List.length = [8, 4, 4, 4, 12] then hexListVal parts.flatten
    else none
  else none

/-- `parse_resource_gts` with the modelled external validators, at
`String` type. -/
def parse_resource_gts (s : String) :
    Except DomainError (String × Nat) :=
  (parseResourceGtsWith gtsSchemaValid uuidParse s.data).map
    (fun p => (String.mk p.1, p.2))

-- ===========================================================================
-- JSON parsing of Problem Details (`serde_json::from_str`)
-- ===========================================================================

/-- JSON insignificant whitespace. -/
def skipWs (l : List Char) : List Char :=
  l.dropWhile (fun c => c = ' ' || c = Char.ofNat 9 || c = Char.ofNat 10 || c = Char.ofNat 13)

/-- Parse the remainder of a JSON string literal (after the opening quote),
undoing `serde_json`'s escapes: returns the decoded characters and the rest
of the input after the closing quote.  Raw control characters are rejected,
as `serde_json` does.  `\uXXXX` escapes decode a scalar value; surrogate
halves are rejected (serde pairs them, but no escape emitted by the
serializer is a surrogate). -/
def parseStringChars : List Char → Option (List Char × List Char)
  | [] => none
  | c :: rest =>
    if c = Char.ofNat 34 then some ([], rest)
    else if c = Char.ofNat 92 then
      match rest with
      | [] => none
      | e :: rest2 =>
        if e = Char.ofNat 34 then
          (parseStringChars rest2).map (fun p => (Char.ofNat 34 :: p.1, p.2))
        else if e = Char.ofNat 92 then
          (parseStringChars rest2).map (fun p => (Char.ofNat 92 :: p.1, p.2))
        else if e = '/' then
          (parseStringChars rest2).map (fun p => ('/' :: p.1, p.2))
        else if e = 'b' then
          (parseStringChars rest2).map (fun p => (Char.ofNat 8 :: p.1, p.2))
        else if e = 'f' then
          (parseStringChars rest2).map (fun p => (Char.ofNat 12 :: p.1, p.2))
        else if e = 'n' then
          (parseStringChars rest2).map (fun p => (Char.ofNat 10 :: p.1, p.2))
        else if e = 'r' then
          (parseStringChars rest2).map (fun p => (Char.ofNat 13 :: p.1, p.2))
        else if e = 't' then
          (parseStringChars rest2).map (fun p => (Char.ofNat 9 :: p.1, p.2))
        else if e = 'u' then
          match rest2 with
          | h1 :: h2 :: h3 :: h4 :: rest3 =>
            match hexCharVal h1, hexCharVal h2, hexCharVal h3, hexCharVal h4 with
            | some a, some b, some c3, some d =>
              let code := ((a * 16 + b) * 16 + c3) * 16 + d
              if 55296 ≤ code ∧ code < 57344 then none
              else (parseStringChars rest3).map (fun p => (Char.ofNat code :: p.1, p.2))
            | _, _, _, _ => none
          | _ => none
        else none
    else if c.toNat < 32 then none
    else (parseStringChars rest).map (fun p => (c :: p.1, p.2))

/-- Parse a JSON non-negative integer (the only number shape the serializer
emits): one or more digits, no leading zero. -/
def parseNatChars (l : List Char) : Option (Nat × List Char) :=
  let ds := l.takeWhile isDigitChar
  let rest := l.dropWhile isDigitChar
  match ds with
  | [] => none
  | d :: ds2 =>
    if d = '0' ∧ ds2 ≠ [] then none
    else some ((d :: ds2).foldl (fun a c => 10 * a + (c.toNat - 48)) 0, rest)

/-- The struct-visitor state for deserializing `ProblemDetails`: which
fields have been seen so far (serde rejects duplicates and, at the end,
missing fields). -/
structure PDPartial where
  ty : Option (List Char) := none
  ti : Option (List Char) := none
  st : Option Nat := none
  de : Option (List Char) := none
  inst : Option (List Char) := none
  deriving DecidableEq, Repr

/-- Parse one `"key": value` member into the visitor state.  The known
fields expect the type serde expects (`type`/`title`/`detail`/`instance` a
string, `status` a `u16`); an unknown key's value is parsed and ignored
(serde's default).  Returns the updated state and the input after the
value. -/
def parsePDMember (acc : PDPartial) (l : List Char) :
    Option (PDPartial × List Char) :=
  match l with
  | c :: rest =>
    if c = Char.ofNat 34 then
      match parseStringChars rest with
      | none => none
      | some (key, rest1) =>
        match skipWs rest1 with
        | ':' :: rest3 =>
          let rest4 := skipWs rest3
          if key = "type".data then
            if acc.ty.isSome then none
            else match rest4 with
              | c2 :: r =>
                if c2 = Char.ofNat 34 then
                  (parseStringChars r).map (fun p => ({ acc with ty := some p.1 }, p.2))
                else none
              | [] => none
          else if key = "title".data then
            if acc.ti.isSome then none
            else match rest4 with
              | c2 :: r =>
                if c2 = Char.ofNat 34 then
                  (parseStringChars r).map (fun p => ({ acc with ti := some p.1 }, p.2))
                else none
              | [] => none
          else if key = "status".data then
            if acc.st.isSome then none
            else match parseNatChars rest4 with
              | some (v, r) => if v < 65536 then some ({ acc with st := some v }, r) else none
              | none => none
          else if key = "detail".data then
            if acc.de.isSome then none
            else match rest4 with
              | c2 :: r =>
                if c2 = Char.ofNat 34 then
                  (parseStringChars r).map (fun p => ({ acc with de := some p.1 }, p.2))
                else none
              | [] => none
          else if key = "instance".data then
            if acc.inst.isSome then none
            else match rest4 with
              | c2 :: r =>
                if c2 = Char.ofNat 34 then
                  (parseStringChars r).map (fun p => ({ acc with inst := some p.1 }, p.2))
                else none
              | [] => none
          else
            match rest4 with
            | c2 :: r =>
              if c2 = Char.ofNat 34 then
                (parseStringChars r).map (fun p => (acc, p.2))
              else (parseNatChars rest4).map (fun p => (acc, p.2))
            | [] => none
        | _ => none
    else none
  | [] => none

/-- Parse the members of the Problem Details object (positioned after `{`
or after a `,`), maintaining the visitor state, until the closing `}`.
The fuel argument bounds the number of members; callers pass the input
length, which suffices since every member consumes input. -/
def parsePDFields : Nat → PDPartial → List Char → Option (PDPartial × List Char)
  | 0, _, _ => none
  | fuel + 1, acc, l =>
    match parsePDMember acc (skipWs l) with
    | none => none
    | some (acc2, r) =>
      match skipWs r with
      | ',' :: rest => parsePDFields fuel acc2 rest
      | c :: rest => if c = Char.ofNat 125 then some (acc2, rest) else none
      | [] => none

/-- `serde_json::from_str::<ProblemDetails>`: an object with exactly the
five fields (any order, whitespace allowed, duplicates and missing fields
rejected, unknown fields ignored), then end of input. -/
def parseProblemDetails (s : String) : Option ProblemDetails :=
  match skipWs s.data with
  | c :: rest =>
    if c = Char.ofNat 123 then
      match parsePDFields (rest.length + 5) {} rest with
      | some (acc, r) =>
        if skipWs r = [] then
          match acc.ty, acc.ti, acc.st, acc.de, acc.inst with
          | some ty, some ti, some st, some de, some inst =>
            some { error_type := String.mk ty, title := String.mk ti,
                   status := st, detail := String.mk de,
                   instance_ := String.mk inst }
          | _, _, _, _, _ => none
        else none
      | none => none
    else none
  | [] => none

-- ===========================================================================
-- Spec-side definitions for refinement statements
-- ===========================================================================

/-- The §7 error taxonomy table of the SPEC (not the code): the HTTP status
the specification fixes for each error kind.  Compared against the code's
`http_status` in the C1 theorem. -/
def specTaxonomyStatus (err : DomainError) : Nat :=
  match err with
  | .Validation .. => 400
  | .Conflict .. => 400
  | .MissingTargetHost .. => 400
  | .InvalidTargetHost .. => 400
  | .UnknownTargetHost .. => 400
  | .AuthenticationFailed .. => 401
  | .NotFound .. => 404
  | .PayloadTooLarge .. => 413
  | .RateLimitExceeded .. => 429
  | .SecretNotFound .. => 500
  | .Internal .. => 500
  | .DownstreamError .. => 502
  | .ProtocolError .. => 502
  | .UpstreamDisabled .. => 503
  | .ConnectionTimeout .. => 504
  | .RequestTimeout .. => 504

/-- Whether a `parse_resource_gts` result is a `Validation` error. -/
def isValidationErr {α : Type} : Except DomainError α → Bool
  | .error (.Validation _ _) => true
  | _ => false

-- ===========================================================================
-- Helper lemmas: characters and digits
-- ===========================================================================

theorem toNat_ofNat_of_lt {n : Nat} (h : n < 55296) : (Char.ofNat n).toNat = n := by
  have hv : n.isValidChar := Or.inl h
  simp only [Char.ofNat, hv, dite_true, dif_pos]
  simp only [Char.ofNatAux, Char.toNat, UInt32.toNat]
  simp [BitVec.toNat_ofNatLt]

theorem hexDigitChar_toNat_lt {d : Nat} (h : d < 10) :
    (hexDigitChar d).toNat = 48 + d := by
  unfold hexDigitChar
  rw [if_pos h]
  exact toNat_ofNat_of_lt (by omega)

theorem hexDigitChar_toNat_ge {d : Nat} (h1 : 10 ≤ d) (h2 : d < 16) :
    (hexDigitChar d).toNat = 87 + d := by
  unfold hexDigitChar
  rw [if_neg (by omega)]
  exact toNat_ofNat_of_lt (by omega)

theorem hexCharVal_hexDigitChar {d : Nat} (h : d < 16) :
    hexCharVal (hexDigitChar d) = some d := by
  unfold hexCharVal
  rcases Nat.lt_or_ge d 10 with hd | hd
  · rw [hexDigitChar_toNat_lt hd, if_pos (by omega)]
    congr 1
    omega
  · rw [hexDigitChar_toNat_ge hd h, if_neg (by omega), if_pos (by omega)]
    congr 1
    omega

theorem hexDigitChar_toNat_range {d : Nat} (h : d < 16) :
    (48 ≤ (hexDigitChar d).toNat ∧ (hexDigitChar d).toNat ≤ 57) ∨
    (97 ≤ (hexDigitChar d).toNat ∧ (hexDigitChar d).toNat ≤ 102) := by
  rcases Nat.lt_or_ge d 10 with hd | hd
  · left
    rw [hexDigitChar_toNat_lt hd]
    omega
  · right
    rw [hexDigitChar_toNat_ge hd h]
    omega

theorem char_ne_of_toNat_ne {a b : Char} (h : a.toNat ≠ b.toNat) : a ≠ b := by
  intro he
  exact h (he ▸ rfl)

-- ===========================================================================
-- Helper lemmas: decimal rendering
-- ===========================================================================

theorem natDecimal_ne_nil (n : Nat) : natDecimal n ≠ [] := by
  rw [natDecimal]
  split <;> simp

theorem natDecimal_lt (n : Nat) (h : n < 10) : natDecimal n = [hexDigitChar n] := by
  rw [natDecimal, dif_pos h]

theorem natDecimal_ge (n : Nat) (h : 10 ≤ n) :
    natDecimal n = natDecimal (n / 10) ++ [hexDigitChar (n % 10)] := by
  rw [natDecimal]
  rw [dif_neg (by omega)]

theorem natDecimal_all_digit (n : Nat) :
    ∀ c ∈ natDecimal n, 48 ≤ c.toNat ∧ c.toNat ≤ 57 := by
  induction n using Nat.strong_induction_on with
  | _ n ih =>
    intro c hc
    rcases Nat.lt_or_ge n 10 with h | h
    · rw [natDecimal_lt n h] at hc
      simp at hc
      subst hc
      rw [hexDigitChar_toNat_lt h]
      omega
    · rw [natDecimal_ge n h] at hc
      rcases List.mem_append.mp hc with hc | hc
      · exact ih (n / 10) (Nat.div_lt_self (by omega) (by omega)) c hc
      · simp at hc
        subst hc
        rw [hexDigitChar_toNat_lt (Nat.mod_lt _ (by omega))]
        have := Nat.mod_lt n (y := 10) (by omega)
        omega

theorem natDecimal_foldl (n : Nat) :
    ∀ a, (natDecimal n).foldl (fun a c => 10 * a + (c.toNat - 48)) a =
      a * 10 ^ (natDecimal n).length + n := by
  induction n using Nat.strong_induction_on with
  | _ n ih =>
    intro a
    rcases Nat.lt_or_ge n 10 with h | h
    · rw [natDecimal_lt n h]
      simp [List.foldl, hexDigitChar_toNat_lt h]
      omega
    · rw [natDecimal_ge n h, List.foldl_append, List.length_append,
        ih (n / 10) (Nat.div_lt_self (by omega) (by omega)) a]
      simp only [List.foldl, List.length_cons, List.length_nil]
      rw [hexDigitChar_toNat_lt (Nat.mod_lt _ (by omega))]
      have hpow : a * 10 ^ ((natDecimal (n / 10)).length + (0 + 1)) =
          a * 10 ^ (natDecimal (n / 10)).length * 10 := by
        ring
      rw [hpow]
      generalize a * 10 ^ (natDecimal (n / 10)).length = C
      omega

theorem natDecimal_inj {m n : Nat} (h : natDecimal m = natDecimal n) : m = n := by
  have h1 := natDecimal_foldl m 0
  have h2 := natDecimal_foldl n 0
  rw [h] at h1
  rw [h1] at h2
  omega

theorem natToString_inj {m n : Nat} (h : natToString m = natToString n) : m = n := by
  unfold natToString at h
  exact natDecimal_inj (by injection h)

theorem natDecimal_head_ne_zero (n : Nat) (h : 10 ≤ n) :
    ∀ c, (natDecimal n).head? = some c → c ≠ '0' := by
  induction n using Nat.strong_induction_on with
  | _ n ih =>
    intro c hc
    rw [natDecimal_ge n (by omega)] at hc
    rcases Nat.lt_or_ge (n / 10) 10 with h10 | h10
    · rw [natDecimal_lt _ h10] at hc
      simp at hc
      subst hc
      apply char_ne_of_toNat_ne
      rw [hexDigitChar_toNat_lt h10]
      have : 1 ≤ n / 10 := Nat.le_div_iff_mul_le (by omega) |>.mpr (by omega)
      show 48 + n / 10 ≠ 48
      omega
    · have hne := natDecimal_ne_nil (n / 10)
      rcases hl : natDecimal (n / 10) with _ | ⟨d, ds⟩
      · exact absurd hl hne
      · rw [hl] at hc
        simp at hc
        apply ih (n / 10) (Nat.div_lt_self (by omega) (by omega)) (by omega) c
        rw [hl]
        simp [hc]

-- ===========================================================================
-- Helper lemmas: takeWhile / dropWhile over a clean split
-- ===========================================================================

theorem takeWhile_append_of {α : Type} {p : α → Bool} {l1 l2 : List α}
    (h1 : ∀ x ∈ l1, p x = true)
    (h2 : ∀ c, l2.head? = some c → p c = false) :
    (l1 ++ l2).takeWhile p = l1 := by
  induction l1 with
  | nil =>
    simp only [List.nil_append]
    cases l2 with
    | nil => rfl
    | cons c t =>
      rw [List.takeWhile_cons, h2 c rfl]
      simp
  | cons x t ih =>
    rw [List.cons_append, List.takeWhile_cons, h1 x (by simp)]
    simp only [if_true]
    rw [ih (fun y hy => h1 y (by simp [hy]))]

theorem dropWhile_append_of {α : Type} {p : α → Bool} {l1 l2 : List α}
    (h1 : ∀ x ∈ l1, p x = true)
    (h2 : ∀ c, l2.head? = some c → p c = false) :
    (l1 ++ l2).dropWhile p = l2 := by
  induction l1 with
  | nil =>
    simp only [List.nil_append]
    cases l2 with
    | nil => rfl
    | cons c t =>
      rw [List.dropWhile_cons, h2 c rfl]
      simp
  | cons x t ih =>
    rw [List.cons_append, List.dropWhile_cons, h1 x (by simp)]
    exact ih (fun y hy => h1 y (by simp [hy]))

theorem parseNatChars_natDecimal (n : Nat) (rest : List Char)
    (hrest : ∀ c, rest.head? = some c → isDigitChar c = false) :
    parseNatChars (natDecimal n ++ rest) = some (n, rest) := by
  have hall : ∀ c ∈ natDecimal n, isDigitChar c = true := by
    intro c hc
    have := natDecimal_all_digit n c hc
    unfold isDigitChar
    simp
    omega
  unfold parseNatChars
  rw [takeWhile_append_of hall hrest, dropWhile_append_of hall hrest]
  have hne := natDecimal_ne_nil n
  rcases hl : natDecimal n with _ | ⟨d, ds⟩
  · exact absurd hl hne
  · simp only []
    have hnolead : ¬(d = '0' ∧ ds ≠ []) := by
      rintro ⟨hd0, hds⟩
      rcases Nat.lt_or_ge n 10 with h10 | h10
      · rw [natDecimal_lt n h10] at hl
        injection hl with _ h2
        exact hds h2.symm
      · exact natDecimal_head_ne_zero n h10 d (by rw [hl]; rfl) hd0
    rw [if_neg hnolead]
    have hv := natDecimal_foldl n 0
    rw [hl] at hv
    simp only [Nat.zero_mul, Nat.zero_add] at hv
    rw [hv]

-- ===========================================================================
-- C1: the error taxonomy statuses
-- ===========================================================================

/-- C1.  For every `DomainError` value, the Problem Details produced for it
carries the HTTP status fixed by the §7 taxonomy: Validation, Conflict,
MissingTargetHost, InvalidTargetHost, UnknownTargetHost → 400;
AuthenticationFailed → 401; NotFound → 404; PayloadTooLarge → 413;
RateLimitExceeded → 429; SecretNotFound, Internal → 500; DownstreamError,
ProtocolError → 502; UpstreamDisabled → 503; ConnectionTimeout,
RequestTimeout → 504.  The code's `http_status` (which fills the `status`
field of the Problem Details in `to_problem_details`) agrees with the
spec-side table on every error. -/
theorem c1_taxonomy_status (e : DomainError) :
    http_status e = specTaxonomyStatus e ∧
    (to_problem_details e).status = specTaxonomyStatus e := by
  cases e <;> exact ⟨rfl, rfl⟩

-- ===========================================================================
-- C3: pagination clamping
-- ===========================================================================

/-- C3 counterexample.  The claim says every `to_list_query` result has
`top` in `[1, 100]`, with `limit = 0` yielding `top = 1`; but the code is
`self.limit.min(100)`, an upper clamp only, so `limit = 0` yields
`top = 0`. -/
theorem c3_counterexample :
    to_list_query { limit := 0, offset := 0 } = { top := 0, skip := 0 } ∧
    ¬(1 ≤ (to_list_query { limit := 0, offset := 0 }).top) := by
  constructor
  · rfl
  · decide

/-- C3 amended.  `to_list_query` clamps `limit` from above only:
`top = min limit 100` lies in `[0, 100]` (equal to `limit` when
`limit ≤ 100`, and to `100` when `limit > 100` — so limit values 0, 1,
100, 101 yield top 0, 1, 100, 100), and `skip` equals `offset`
unchanged. -/
theorem c3_top_clamped_above (q : PaginationQuery) :
    (to_list_query q).top ≤ 100 ∧
    (q.limit ≤ 100 → (to_list_query q).top = q.limit) ∧
    (100 < q.limit → (to_list_query q).top = 100) ∧
    (to_list_query q).skip = q.offset := by
  unfold to_list_query
  refine ⟨?_, ?_, ?_, rfl⟩ <;> simp only [] <;> omega

/-- C3 witness: the amended theorem applied at `limit = 101, offset = 7`. -/
theorem c3_top_clamped_above_witness :
    (to_list_query { limit := 101, offset := 7 }).top ≤ 100 ∧
    ((101 : Nat) ≤ 100 → (to_list_query { limit := 101, offset := 7 }).top = 101) ∧
    ((100 : Nat) < 101 → (to_list_query { limit := 101, offset := 7 }).top = 100) ∧
    (to_list_query { limit := 101, offset := 7 }).skip = 7 :=
  c3_top_clamped_above { limit := 101, offset := 7 }

-- ===========================================================================
-- C4: alias-conflict status
-- ===========================================================================

/-- C4 counterexample.  The claim says a `DomainError::Conflict` raised by
`create_upstream` is rendered by the management surface with HTTP status
409; but `http_status` maps `Conflict` to 400, so the response built by
`domain_error_response` (which the upstream-create handler uses) carries
status 400, not 409. -/
theorem c4_counterexample :
    (domain_error_response (.Conflict "alias already exists in tenant")
        "/oagw/v1/upstreams").status = 400 ∧
    (400 : Nat) ≠ 409 := by
  constructor
  · rfl
  · decide

/-- C4 amended.  Creating an upstream whose alias conflicts with an
existing alias in the same tenant fails with HTTP status 400 (the §7
taxonomy files `Conflict` under Validation): for every
`DomainError::Conflict`, the management surface renders a response with
status 400, typed as a validation error. -/
theorem c4_conflict_renders_400 (detail instance_ : String) :
    (domain_error_response (.Conflict detail) instance_).status = 400 ∧
    (to_problem_details (.Conflict detail)).error_type = ERR_VALIDATION := by
  exact ⟨rfl, rfl⟩

-- ===========================================================================
-- C9: secret redaction
-- ===========================================================================

/-- C9 counterexample.  The claim's final clause says the Display output of
a `SecretValue` "never contains" the wrapped secret string; for the secret
`"RED"` the output `[REDACTED]` does contain it as a substring (as any
secret that happens to be a substring of the constant is contained). -/
theorem c9_counterexample :
    secretDisplay { value := "RED" } = "[REDACTED]" ∧
    "RED".data <:+: (secretDisplay { value := "RED" }).data := by
  constructor
  · rfl
  · decide

/-- C9 amended.  For any two `SecretValue` values, their Display renderings
are equal and equal to the string `[REDACTED]`: the formatted output is
independent of the wrapped secret string, and it contains the wrapped
secret only in the degenerate case where the secret is itself a substring
of the constant `[REDACTED]` (such as `"RED"` or the empty string). -/
theorem c9_display_redacted (v w : SecretValue) :
    secretDisplay v = secretDisplay w ∧
    secretDisplay v = "[REDACTED]" ∧
    (v.value.data <:+: (secretDisplay v).data →
      v.value.data <:+: "[REDACTED]".data) := by
  exact ⟨rfl, rfl, fun h => h⟩

-- ===========================================================================
-- Helper lemmas: ASCII lowercasing
-- ===========================================================================

theorem ule_iff (a b : UInt32) : (a ≤ b) ↔ (a.toNat ≤ b.toNat) := by
  rw [UInt32.le_def, BitVec.le_def]
  rfl

theorem char_isUpper_eq (d : Char) :
    d.isUpper = (decide (65 ≤ d.toNat) && decide (d.toNat ≤ 90)) := by
  unfold Char.isUpper
  have h1 : decide (d.val ≥ 65) = decide (65 ≤ d.toNat) := by
    apply decide_eq_decide.mpr
    rw [ge_iff_le]
    exact ule_iff 65 d.val
  have h2 : decide (d.val ≤ 90) = decide (d.toNat ≤ 90) := by
    apply decide_eq_decide.mpr
    exact ule_iff d.val 90
  rw [h1, h2]

theorem toLower_not_upper (c : Char) : (Char.toLower c).isUpper = false := by
  rw [char_isUpper_eq]
  unfold Char.toLower
  simp only []
  split
  · next h =>
    have hv : (Char.ofNat (c.toNat + 32)).toNat = c.toNat + 32 := by
      have hvv : (c.toNat + 32).isValidChar := Or.inl (by omega)
      simp only [Char.ofNat, hvv, dif_pos]
      simp only [Char.ofNatAux, Char.toNat, UInt32.toNat]
      simp [BitVec.toNat_ofNatLt]
    rw [hv]
    simp only [Bool.and_eq_false_iff, decide_eq_false_iff_not]
    right
    omega
  · next h =>
    simp only [Bool.and_eq_false_iff, decide_eq_false_iff_not]
    omega

-- ===========================================================================
-- C5: alias contribution and derivation
-- ===========================================================================

/-- C5.  For every endpoint, the alias contribution equals `host` when the
port is 80 or 443 and `host:port` otherwise; and the derived alias — the
contribution lowercased, per the spec's alias derivation (modelled, see
`derive_alias`) — contains no uppercase letters even when the host
does. -/
theorem c5_alias_contribution_spec (e : Endpoint) :
    (e.port = 80 ∨ e.port = 443 → alias_contribution e = e.host) ∧
    (¬(e.port = 80 ∨ e.port = 443) →
      alias_contribution e = e.host ++ ":" ++ natToString e.port) ∧
    derive_alias e = String.mk ((alias_contribution e).data.map Char.toLower) ∧
    (∀ c ∈ (derive_alias e).data, c.isUpper = false) := by
  refine ⟨?_, ?_, rfl, ?_⟩
  · intro h
    unfold alias_contribution
    rw [if_pos (by tauto)]
  · intro h
    unfold alias_contribution
    rw [if_neg (by tauto)]
  · intro c hc
    unfold derive_alias at hc
    rcases List.mem_map.mp hc with ⟨x, _, hx⟩
    rw [← hx]
    exact toLower_not_upper x

/-- C5 witness: the theorem applied at a mixed-case host on port 443 (the
port is dropped and the alias is lowercased) — hypotheses discharged
concretely. -/
theorem c5_alias_contribution_spec_witness :
    alias_contribution { scheme := .Https, host := "API.OpenAI.com", port := 443 } =
      "API.OpenAI.com" ∧
    derive_alias { scheme := .Https, host := "API.OpenAI.com", port := 443 } =
      "api.openai.com" := by
  constructor
  · exact (c5_alias_contribution_spec _).1 (Or.inr rfl)
  · decide

/-- C9 witness: the amended theorem applied at two concrete secrets. -/
theorem c9_display_redacted_witness :
    secretDisplay { value := "sk-test123" } = secretDisplay { value := "hunter2" } ∧
    secretDisplay { value := "sk-test123" } = "[REDACTED]" ∧
    ("sk-test123".data <:+: (secretDisplay { value := "sk-test123" }).data →
      "sk-test123".data <:+: "[REDACTED]".data) :=
  c9_display_redacted { value := "sk-test123" } { value := "hunter2" }

-- ===========================================================================
-- C10: error-source header parsing
-- ===========================================================================

/-- C10.  `parse_error_source_header` is total on arbitrary header maps and
returns `Gateway` exactly when the `x-oagw-error-source` header is present
and its value is valid ASCII whose lowercasing is `gateway`; `Upstream`
exactly when the lowercasing is `upstream`; and `Unknown` in every other
case (header absent, value not valid ASCII, or any other value). -/
theorem c10_parse_error_source_spec (hs : List (String × List Nat)) :
    (parse_error_source_header hs = .Gateway ↔
      ∃ p, hs.find? (fun q => q.1 == "x-oagw-error-source") = some p ∧
        ∃ s, headerValueToStr p.2 = some s ∧ s.map Char.toLower = "gateway".data) ∧
    (parse_error_source_header hs = .Upstream ↔
      ∃ p, hs.find? (fun q => q.1 == "x-oagw-error-source") = some p ∧
        ∃ s, headerValueToStr p.2 = some s ∧ s.map Char.toLower = "upstream".data) ∧
    (parse_error_source_header hs = .Unknown ↔
      ¬(∃ p, hs.find? (fun q => q.1 == "x-oagw-error-source") = some p ∧
          ∃ s, headerValueToStr p.2 = some s ∧
            (s.map Char.toLower = "gateway".data ∨
             s.map Char.toLower = "upstream".data))) := by
  unfold parse_error_source_header
  cases hf : hs.find? (fun q => q.1 == "x-oagw-error-source") with
  | none => simp [hf]
  | some p =>
    cases hvs : headerValueToStr p.2 with
    | none => simp [hf, hvs]
    | some s =>
      by_cases hg : s.map Char.toLower = "gateway".data
      · simp [hf, hvs, hg]
      · by_cases hu : s.map Char.toLower = "upstream".data
        · simp [hf, hvs, hg, hu]
        · simp [hf, hvs, hg, hu]

/-- C10 witness: the theorem applied at a concrete header map carrying
`X-OAGW-Error-Source: GateWay` (mixed case), which parses as `Gateway`. -/
theorem c10_parse_error_source_spec_witness :
    parse_error_source_header
      [("x-tenant-id", [49]),
       ("x-oagw-error-source", [71, 97, 116, 101, 87, 97, 121])] = .Gateway := by
  apply (c10_parse_error_source_spec _).1.mpr
  refine ⟨("x-oagw-error-source", [71, 97, 116, 101, 87, 97, 121]), by decide,
    "GateWay".data, by decide, by decide⟩

-- ===========================================================================
-- C2: error response headers
-- ===========================================================================

/-- C2.  For every `DomainError` `e`, the response built by
`error_response e` carries `Content-Type: application/problem+json` and
`X-OAGW-Error-Source: gateway`; and it carries a `Retry-After` header with
value `s` exactly when `e` is `RateLimitExceeded` with
`retry_after_secs = Some s`. -/
theorem c2_error_response_headers (e : DomainError) :
    headerGet (error_response e).headers "content-type" =
      some "application/problem+json" ∧
    headerGet (error_response e).headers "x-oagw-error-source" = some "gateway" ∧
    (∀ s : Nat,
      headerGet (error_response e).headers "retry-after" = some (natToString s) ↔
        ∃ d i, e = .RateLimitExceeded d i (some s)) := by
  unfold error_response build_response headerGet
  cases e with
  | RateLimitExceeded d i ro =>
    cases ro with
    | none => simp
    | some secs =>
      refine ⟨by simp, by simp, ?_⟩
      intro s
      simp only [List.cons_append, List.nil_append, List.find?]
      constructor
      · intro h
        simp only [show (("content-type" : String) == "retry-after") = false by decide,
          show (("x-oagw-error-source" : String) == "retry-after") = false by decide,
          show (("retry-after" : String) == "retry-after") = true by decide] at h
        simp at h
        exact ⟨d, i, by rw [natToString_inj h]⟩
      · rintro ⟨d2, i2, he⟩
        injection he with _ _ hro
        injection hro with hsecs
        subst hsecs
        simp [show (("content-type" : String) == "retry-after") = false by decide,
          show (("x-oagw-error-source" : String) == "retry-after") = false by decide]
  | Validation d i => simp
  | Conflict d => simp
  | MissingTargetHost i => simp
  | InvalidTargetHost i => simp
  | UnknownTargetHost d i => simp
  | AuthenticationFailed d i => simp
  | NotFound entity id => simp
  | PayloadTooLarge d i => simp
  | SecretNotFound d i => simp
  | DownstreamError d i => simp
  | ProtocolError d i => simp
  | UpstreamDisabled a => simp
  | ConnectionTimeout d i => simp
  | RequestTimeout d i => simp
  | Internal m => simp

-- ===========================================================================
-- Helper lemmas: rfind on the final tilde
-- ===========================================================================

theorem rfindTilde_eq_none_iff (s : List Char) : rfindTilde s = none ↔ '~' ∉ s := by
  induction s with
  | nil => simp [rfindTilde]
  | cons c rest ih =>
    rw [rfindTilde]
    cases hr : rfindTilde rest with
    | some i =>
      have hmem : '~' ∈ rest := by
        by_contra hno
        rw [ih.mpr hno] at hr
        exact Option.noConfusion hr
      simp [hmem]
    | none =>
      have hrest : '~' ∉ rest := ih.mp hr
      by_cases hc : c = '~'
      · subst hc
        simp
      · rw [if_neg hc]
        simp only [List.mem_cons, not_or]
        exact ⟨fun _ => ⟨fun h => hc h.symm, hrest⟩, fun _ => trivial⟩

theorem rfindTilde_spec (s : List Char) :
    ∀ t, rfindTilde s = some t →
      t < s.length ∧ s[t]? = some '~' ∧ ∀ j, t < j → s[j]? ≠ some '~' := by
  induction s with
  | nil => intro t h; exact absurd h (by simp [rfindTilde])
  | cons c rest ih =>
    intro t h
    rw [rfindTilde] at h
    cases hr : rfindTilde rest with
    | some i =>
      rw [hr] at h
      injection h with h
      subst h
      obtain ⟨h1, h2, h3⟩ := ih i hr
      refine ⟨by simp; omega, by simpa using h2, ?_⟩
      intro j hj
      cases j with
      | zero => omega
      | succ j2 =>
        rw [List.getElem?_cons_succ]
        exact h3 j2 (by omega)
    | none =>
      rw [hr] at h
      by_cases hc : c = '~'
      · rw [if_pos hc] at h
        injection h with h
        subst h
        refine ⟨by simp, by simpa using hc, ?_⟩
        intro j hj
        cases j with
        | zero => omega
        | succ j2 =>
          rw [List.getElem?_cons_succ]
          intro hmem
          have : '~' ∈ rest := by
            have := List.getElem?_eq_some_iff.mp hmem
            obtain ⟨hlt, hget⟩ := this
            exact hget ▸ List.getElem_mem hlt
          exact absurd this ((rfindTilde_eq_none_iff rest).mp hr)
      · rw [if_neg hc] at h
        exact absurd h (by simp)

theorem rfindTilde_append_no_tilde (l1 l2 : List Char) (h : '~' ∉ l2) :
    rfindTilde (l1 ++ l2) = rfindTilde l1 := by
  induction l1 with
  | nil =>
    simp only [List.nil_append]
    exact (rfindTilde_eq_none_iff l2).mpr h
  | cons c t ih =>
    rw [List.cons_append, rfindTilde, ih]
    rfl

theorem parseResourceGtsWith_no_tilde (gv : List Char → Bool)
    (up : List Char → Option Nat) (s : List Char) (h : rfindTilde s = none) :
    parseResourceGtsWith gv up s =
      .error (.Validation "missing tilde separator in GTS identifier" (String.mk s)) := by
  simp only [parseResourceGtsWith, h]

theorem parseResourceGtsWith_ok (gv : List Char → Bool)
    (up : List Char → Option Nat) (s : List Char) (t u : Nat)
    (h : rfindTilde s = some t) (hgv : gv (s.take (t + 1)) = true)
    (hup : up (s.drop (t + 1)) = some u) :
    parseResourceGtsWith gv up s = .ok (s.take t, u) := by
  simp only [parseResourceGtsWith, h, hgv, hup, if_true]

theorem parseResourceGtsWith_bad_uuid (gv : List Char → Bool)
    (up : List Char → Option Nat) (s : List Char) (t : Nat)
    (h : rfindTilde s = some t) (hgv : gv (s.take (t + 1)) = true)
    (hup : up (s.drop (t + 1)) = none) :
    parseResourceGtsWith gv up s =
      .error (.Validation "invalid UUID in GTS instance" (String.mk s)) := by
  simp only [parseResourceGtsWith, h, hgv, hup, if_true]

theorem parseResourceGtsWith_bad_schema (gv : List Char → Bool)
    (up : List Char → Option Nat) (s : List Char) (t : Nat)
    (h : rfindTilde s = some t) (hgv : gv (s.take (t + 1)) = false) :
    parseResourceGtsWith gv up s =
      .error (.Validation "invalid GTS schema" (String.mk s)) := by
  simp only [parseResourceGtsWith, h, hgv]
  simp

-- ===========================================================================
-- C6: parse_resource_gts error characterization
-- ===========================================================================

/-- C6.  `parse_resource_gts` (parametric in the external schema and UUID
validators it calls) returns a Validation error exactly when the input
contains no `~`, or the portion up to and including the final `~` fails
schema validation, or the portion after the final `~` fails UUID parsing;
otherwise it returns Ok with the prefix before the final `~` and the
parsed UUID.  `rfindTilde` is the position of the final `~`: the first two
conjuncts pin that down; every error it produces is a Validation
error (last conjunct). -/
theorem c6_parse_resource_gts_spec (gv : List Char → Bool)
    (up : List Char → Option Nat) (s : List Char) :
    (rfindTilde s = none ↔ '~' ∉ s) ∧
    (∀ t, rfindTilde s = some t →
      s[t]? = some '~' ∧ ∀ j, t < j → s[j]? ≠ some '~') ∧
    (isValidationErr (parseResourceGtsWith gv up s) = true ↔
      ('~' ∉ s ∨ ∃ t, rfindTilde s = some t ∧
        (gv (s.take (t + 1)) = false ∨ up (s.drop (t + 1)) = none))) ∧
    (∀ t u, rfindTilde s = some t → gv (s.take (t + 1)) = true →
      up (s.drop (t + 1)) = some u →
      parseResourceGtsWith gv up s = .ok (s.take t, u)) ∧
    (∀ r, parseResourceGtsWith gv up s = .error r →
      isValidationErr (parseResourceGtsWith gv up s) = true) := by
  refine ⟨rfindTilde_eq_none_iff s, fun t h => (rfindTilde_spec s t h).2, ?_, ?_, ?_⟩
  · cases hr : rfindTilde s with
    | none =>
      rw [parseResourceGtsWith_no_tilde gv up s hr]
      exact ⟨fun _ => Or.inl ((rfindTilde_eq_none_iff s).mp hr), fun _ => rfl⟩
    | some t =>
      have hmem : ¬('~' ∉ s) := by
        intro hno
        rw [(rfindTilde_eq_none_iff s).mpr hno] at hr
        exact Option.noConfusion hr
      by_cases hgv : gv (s.take (t + 1)) = true
      · cases hup : up (s.drop (t + 1)) with
        | some u =>
          rw [parseResourceGtsWith_ok gv up s t u hr hgv hup]
          constructor
          · intro h
            exact absurd h (by simp [isValidationErr])
          · rintro (h | ⟨t2, ht2, h2⟩)
            · exact absurd h hmem
            · injection ht2 with ht2
              subst ht2
              rcases h2 with h2 | h2
              · rw [hgv] at h2
                exact absurd h2 (by simp)
              · rw [hup] at h2
                exact absurd h2 (by simp)
        | none =>
          rw [parseResourceGtsWith_bad_uuid gv up s t hr hgv hup]
          exact ⟨fun _ => Or.inr ⟨t, rfl, Or.inr hup⟩, fun _ => rfl⟩
      · have hgv2 : gv (s.take (t + 1)) = false := by simpa using hgv
        rw [parseResourceGtsWith_bad_schema gv up s t hr hgv2]
        exact ⟨fun _ => Or.inr ⟨t, rfl, Or.inl hgv2⟩, fun _ => rfl⟩
  · intro t u hr hgv hup
    exact parseResourceGtsWith_ok gv up s t u hr hgv hup
  · intro r hres
    cases hr : rfindTilde s with
    | none => rw [parseResourceGtsWith_no_tilde gv up s hr]; rfl
    | some t =>
      by_cases hgv : gv (s.take (t + 1)) = true
      · cases hup : up (s.drop (t + 1)) with
        | some u =>
          rw [parseResourceGtsWith_ok gv up s t u hr hgv hup] at hres
          exact Except.noConfusion hres
        | none =>
          rw [parseResourceGtsWith_bad_uuid gv up s t hr hgv hup]
          rfl
      · have hgv2 : gv (s.take (t + 1)) = false := by simpa using hgv
        rw [parseResourceGtsWith_bad_schema gv up s t hr hgv2]
        rfl

/-- C6 witness: the theorem's success clause applied at the concrete
modelled validators and a concrete well-formed identifier, and its error
clause at an input with no tilde. -/
theorem c6_parse_resource_gts_spec_witness :
    parseResourceGtsWith gtsSchemaValid uuidParse
        "gts.x.core.oagw.route.v1~00000000000000000000000000000000".data =
      .ok ("gts.x.core.oagw.route.v1".data, 0) ∧
    isValidationErr (parseResourceGtsWith gtsSchemaValid uuidParse "no-gts".data) =
      true := by
  constructor
  · have h := (c6_parse_resource_gts_spec gtsSchemaValid uuidParse
      "gts.x.core.oagw.route.v1~00000000000000000000000000000000".data).2.2.2.1
      24 0 (by decide) (by decide) (by decide)
    rw [h, show List.take 24
        "gts.x.core.oagw.route.v1~00000000000000000000000000000000".data =
      "gts.x.core.oagw.route.v1".data from by decide]
  · exact ((c6_parse_resource_gts_spec gtsSchemaValid uuidParse
      "no-gts".data).2.2.1).mpr (Or.inl (by decide))

-- ===========================================================================
-- Helper lemmas: fixed-width hexadecimal
-- ===========================================================================

theorem toHexPad_length (k : Nat) : ∀ n, (toHexPad k n).length = k := by
  induction k with
  | zero => intro n; rfl
  | succ k ih =>
    intro n
    show (toHexPad k (n / 16) ++ [hexDigitChar (n % 16)]).length = k + 1
    rw [List.length_append, ih (n / 16)]
    rfl

theorem toHexPad_mem (k : Nat) :
    ∀ n c, c ∈ toHexPad k n →
      (48 ≤ c.toNat ∧ c.toNat ≤ 57) ∨ (97 ≤ c.toNat ∧ c.toNat ≤ 102) := by
  induction k with
  | zero => intro n c hc; exact absurd hc (by simp [toHexPad])
  | succ k ih =>
    intro n c hc
    rcases List.mem_append.mp hc with hc | hc
    · exact ih (n / 16) c hc
    · simp at hc
      subst hc
      exact hexDigitChar_toNat_range (Nat.mod_lt _ (by omega))

theorem tilde_not_mem_toHexPad (k n : Nat) : '~' ∉ toHexPad k n := by
  intro hmem
  rcases toHexPad_mem k n '~' hmem with h | h <;> revert h <;> decide

theorem hexValAux_append (l1 l2 : List Char) :
    ∀ a, hexValAux a (l1 ++ l2) =
      match hexValAux a l1 with
      | some b => hexValAux b l2
      | none => none := by
  induction l1 with
  | nil => intro a; rfl
  | cons c t ih =>
    intro a
    rw [List.cons_append]
    simp only [hexValAux]
    cases hc : hexCharVal c with
    | some d => exact ih (16 * a + d)
    | none => rfl

theorem hexValAux_toHexPad (k : Nat) :
    ∀ n a, n < 16 ^ k → hexValAux a (toHexPad k n) = some (a * 16 ^ k + n) := by
  induction k with
  | zero =>
    intro n a h
    have hn : n = 0 := by omega
    subst hn
    simp [toHexPad, hexValAux]
  | succ k ih =>
    intro n a h
    show hexValAux a (toHexPad k (n / 16) ++ [hexDigitChar (n % 16)]) = _
    rw [hexValAux_append]
    have hdiv : n / 16 < 16 ^ k := by
      rw [Nat.div_lt_iff_lt_mul (by omega)]
      rw [pow_succ] at h
      omega
    rw [ih (n / 16) a hdiv]
    simp only [hexValAux, hexCharVal_hexDigitChar (Nat.mod_lt n (y := 16) (by omega))]
    congr 1
    rw [pow_succ, show a * (16 ^ k * 16) = a * 16 ^ k * 16 from by ring]
    have hmod := Nat.div_add_mod n 16
    generalize a * 16 ^ k = C
    omega

theorem uuidParse_toHexPad (id : Nat) (h : id < 2 ^ 128) :
    uuidParse (toHexPad 32 id) = some id := by
  unfold uuidParse
  rw [if_pos (toHexPad_length 32 id)]
  unfold hexListVal
  have h16 : id < 16 ^ 32 := by
    have he : (16 : Nat) ^ 32 = 2 ^ 128 := by norm_num
    omega
  rw [hexValAux_toHexPad 32 id 0 h16]
  simp

-- ===========================================================================
-- C7: format-then-parse identity
-- ===========================================================================

/-- C7.  For every UUID (128-bit value) `id`,
`parse_resource_gts (format_upstream_gts id)` succeeds with the pair
`("gts.x.core.oagw.upstream.v1", id)`, and
`parse_resource_gts (format_route_gts id)` succeeds with
`("gts.x.core.oagw.route.v1", id)`: formatting a resource id as a GTS
string and parsing it back is the identity. -/
theorem c7_gts_format_parse_roundtrip (id : Nat) (h : id < 2 ^ 128) :
    parse_resource_gts (format_upstream_gts id) =
      .ok ("gts.x.core.oagw.upstream.v1", id) ∧
    parse_resource_gts (format_route_gts id) =
      .ok ("gts.x.core.oagw.route.v1", id) := by
  constructor
  · unfold parse_resource_gts format_upstream_gts
    have hrf : rfindTilde (UPSTREAM_SCHEMA.data ++ toHexPad 32 id) = some 27 := by
      rw [rfindTilde_append_no_tilde _ _ (tilde_not_mem_toHexPad 32 id)]
      decide
    have htake : (UPSTREAM_SCHEMA.data ++ toHexPad 32 id).take 28 =
        UPSTREAM_SCHEMA.data := by
      rw [show (28 : Nat) = UPSTREAM_SCHEMA.data.length from by decide]
      exact List.take_left _ _
    have hdrop : (UPSTREAM_SCHEMA.data ++ toHexPad 32 id).drop 28 =
        toHexPad 32 id := by
      rw [show (28 : Nat) = UPSTREAM_SCHEMA.data.length from by decide]
      exact List.drop_left _ _
    have htake27 : (UPSTREAM_SCHEMA.data ++ toHexPad 32 id).take 27 =
        "gts.x.core.oagw.upstream.v1".data := by
      rw [List.take_append_eq_append_take,
        show UPSTREAM_SCHEMA.data.take 27 =
          "gts.x.core.oagw.upstream.v1".data from by decide,
        show 27 - UPSTREAM_SCHEMA.data.length = 0 from by decide]
      simp
    have hok := parseResourceGtsWith_ok gtsSchemaValid uuidParse
      (UPSTREAM_SCHEMA.data ++ toHexPad 32 id) 27 id hrf
      (by rw [show (27 + 1 : Nat) = 28 from rfl, htake]; decide)
      (by rw [show (27 + 1 : Nat) = 28 from rfl, hdrop]
          exact uuidParse_toHexPad id h)
    rw [show (String.mk (UPSTREAM_SCHEMA.data ++ toHexPad 32 id)).data =
      UPSTREAM_SCHEMA.data ++ toHexPad 32 id from rfl, hok]
    simp only [Except.map, htake27]
  · unfold parse_resource_gts format_route_gts
    have hrf : rfindTilde (ROUTE_SCHEMA.data ++ toHexPad 32 id) = some 24 := by
      rw [rfindTilde_append_no_tilde _ _ (tilde_not_mem_toHexPad 32 id)]
      decide
    have htake : (ROUTE_SCHEMA.data ++ toHexPad 32 id).take 25 =
        ROUTE_SCHEMA.data := by
      rw [show (25 : Nat) = ROUTE_SCHEMA.data.length from by decide]
      exact List.take_left _ _
    have hdrop : (ROUTE_SCHEMA.data ++ toHexPad 32 id).drop 25 =
        toHexPad 32 id := by
      rw [show (25 : Nat) = ROUTE_SCHEMA.data.length from by decide]
      exact List.drop_left _ _
    have htake24 : (ROUTE_SCHEMA.data ++ toHexPad 32 id).take 24 =
        "gts.x.core.oagw.route.v1".data := by
      rw [List.take_append_eq_append_take,
        show ROUTE_SCHEMA.data.take 24 =
          "gts.x.core.oagw.route.v1".data from by decide,
        show 24 - ROUTE_SCHEMA.data.length = 0 from by decide]
      simp
    have hok := parseResourceGtsWith_ok gtsSchemaValid uuidParse
      (ROUTE_SCHEMA.data ++ toHexPad 32 id) 24 id hrf
      (by rw [show (24 + 1 : Nat) = 25 from rfl, htake]; decide)
      (by rw [show (24 + 1 : Nat) = 25 from rfl, hdrop]
          exact uuidParse_toHexPad id h)
    rw [show (String.mk (ROUTE_SCHEMA.data ++ toHexPad 32 id)).data =
      ROUTE_SCHEMA.data ++ toHexPad 32 id from rfl, hok]
    simp only [Except.map, htake24]

/-- C7 witness: the round trip at the concrete UUID value
`0x00112233445566778899aabbccddeeff`. -/
theorem c7_gts_format_parse_roundtrip_witness :
    parse_resource_gts (format_upstream_gts 88962710306127702866241727433142015) =
      .ok ("gts.x.core.oagw.upstream.v1", 88962710306127702866241727433142015) :=
  (c7_gts_format_parse_roundtrip 88962710306127702866241727433142015
    (by norm_num)).1

-- ===========================================================================
-- Helper lemmas: JSON string escaping round trip
-- ===========================================================================

theorem parseStringChars_escChar (c : Char) (t : List Char) :
    parseStringChars (escChar c ++ t) =
      (parseStringChars t).map (fun p => (c :: p.1, p.2)) := by
  by_cases hq : c = Char.ofNat 34
  · subst hq
    rw [show escChar (Char.ofNat 34) = [Char.ofNat 92, Char.ofNat 34] from by decide]
    simp only [List.cons_append, List.nil_append]
    rw [parseStringChars.eq_def]
    simp
  · by_cases hb : c = Char.ofNat 92
    · subst hb
      rw [show escChar (Char.ofNat 92) = [Char.ofNat 92, Char.ofNat 92] from by decide]
      simp only [List.cons_append, List.nil_append]
      rw [parseStringChars.eq_def]
      simp
    · by_cases h32 : c.toNat < 32
      · have hofc : Char.ofNat c.toNat = c := Char.ofNat_toNat c
        by_cases h8 : c.toNat = 8
        · have hc : Char.ofNat 8 = c := by rw [← h8]; exact hofc
          rw [show escChar c = [Char.ofNat 92, 'b'] from by
            rw [escChar, if_neg hq, if_neg hb, if_pos h32, if_pos h8]]
          simp only [List.cons_append, List.nil_append]
          rw [parseStringChars.eq_def]
          simp
          rw [hc]
        · by_cases h9 : c.toNat = 9
          · have hc : Char.ofNat 9 = c := by rw [← h9]; exact hofc
            rw [show escChar c = [Char.ofNat 92, 't'] from by
              rw [escChar, if_neg hq, if_neg hb, if_pos h32, if_neg h8, if_pos h9]]
            simp only [List.cons_append, List.nil_append]
            rw [parseStringChars.eq_def]
            simp
            rw [hc]
          · by_cases h10 : c.toNat = 10
            · have hc : Char.ofNat 10 = c := by rw [← h10]; exact hofc
              rw [show escChar c = [Char.ofNat 92, 'n'] from by
                rw [escChar, if_neg hq, if_neg hb, if_pos h32, if_neg h8, if_neg h9,
                  if_pos h10]]
              simp only [List.cons_append, List.nil_append]
              rw [parseStringChars.eq_def]
              simp
              rw [hc]
            · by_cases h12 : c.toNat = 12
              · have hc : Char.ofNat 12 = c := by rw [← h12]; exact hofc
                rw [show escChar c = [Char.ofNat 92, 'f'] from by
                  rw [escChar, if_neg hq, if_neg hb, if_pos h32, if_neg h8, if_neg h9,
                    if_neg h10, if_pos h12]]
                simp only [List.cons_append, List.nil_append]
                rw [parseStringChars.eq_def]
                simp
                rw [hc]
              · by_cases h13 : c.toNat = 13
                · have hc : Char.ofNat 13 = c := by rw [← h13]; exact hofc
                  rw [show escChar c = [Char.ofNat 92, 'r'] from by
                    rw [escChar, if_neg hq, if_neg hb, if_pos h32, if_neg h8, if_neg h9,
                      if_neg h10, if_neg h12, if_pos h13]]
                  simp only [List.cons_append, List.nil_append]
                  rw [parseStringChars.eq_def]
                  simp
                  rw [hc]
                · rw [show escChar c = [Char.ofNat 92, 'u', '0', '0',
                      hexDigitChar (c.toNat / 16), hexDigitChar (c.toNat % 16)] from by
                    rw [escChar, if_neg hq, if_neg hb, if_pos h32, if_neg h8, if_neg h9,
                      if_neg h10, if_neg h12, if_neg h13]]
                  simp only [List.cons_append, List.nil_append]
                  rw [parseStringChars.eq_def]
                  simp only [show hexCharVal '0' = some 0 from by decide,
                    hexCharVal_hexDigitChar (show c.toNat / 16 < 16 by omega),
                    hexCharVal_hexDigitChar (show c.toNat % 16 < 16 by omega)]
                  simp only [show ((0 * 16 + 0) * 16 + c.toNat / 16) * 16 + c.toNat % 16 =
                    c.toNat from by omega]
                  simp only [if_true, ite_true]
                  rw [if_neg (show ¬('u' = Char.ofNat 34) from by decide),
                    if_neg (show ¬('u' = Char.ofNat 92) from by decide),
                    if_neg (show ¬('u' = '/') from by decide),
                    if_neg (show ¬('u' = 'b') from by decide),
                    if_neg (show ¬('u' = 'f') from by decide),
                    if_neg (show ¬('u' = 'n') from by decide),
                    if_neg (show ¬('u' = 'r') from by decide),
                    if_neg (show ¬('u' = 't') from by decide)]
                  rw [if_neg (show ¬(Char.ofNat 92 = Char.ofNat 34) from by decide),
                    if_neg (show ¬(55296 ≤ c.toNat ∧ c.toNat < 57344) from by omega), hofc]
      · rw [show escChar c = [c] from by rw [escChar, if_neg hq, if_neg hb, if_neg h32]]
        simp only [List.cons_append, List.nil_append]
        rw [parseStringChars.eq_def]
        simp only [if_neg hq, if_neg hb, if_neg h32]

theorem parseStringChars_flatMap (v : List Char) :
    ∀ rest, parseStringChars (v.flatMap escChar ++ Char.ofNat 34 :: rest) =
      some (v, rest) := by
  induction v with
  | nil =>
    intro rest
    rw [List.flatMap_nil, List.nil_append, parseStringChars.eq_def]
    simp
  | cons c v ih =>
    intro rest
    rw [List.flatMap_cons, List.append_assoc, parseStringChars_escChar, ih rest]
    rfl

theorem skipWs_cons_not_ws {c : Char}
    (h : (c = ' ' || c = Char.ofNat 9 || c = Char.ofNat 10 || c = Char.ofNat 13) = false)
    (l : List Char) : skipWs (c :: l) = c :: l := by
  unfold skipWs
  rw [List.dropWhile_cons, h]
  simp

theorem parsePDMember_type (acc : PDPartial) (hacc : acc.ty = none) (v after : List Char) :
    parsePDMember acc (jsonStr "type".data ++ (':' :: (jsonStr v ++ after))) =
      some ({ acc with ty := some v }, after) := by
  unfold jsonStr
  simp only [List.cons_append, List.append_assoc, List.singleton_append, List.nil_append]
  rw [parsePDMember]
  rw [if_pos rfl]
  rw [parseStringChars_flatMap]
  simp only []
  rw [skipWs_cons_not_ws (by decide)]
  simp only [if_true, ite_true]
  rw [hacc]
  simp only [Option.isSome_none, Bool.false_eq_true, if_false]
  rw [skipWs_cons_not_ws (by decide)]
  simp only [if_true, ite_true]
  rw [parseStringChars_flatMap]
  rfl

theorem parsePDMember_title (acc : PDPartial) (hacc : acc.ti = none) (v after : List Char) :
    parsePDMember acc (jsonStr "title".data ++ (':' :: (jsonStr v ++ after))) =
      some ({ acc with ti := some v }, after) := by
  unfold jsonStr
  simp only [List.cons_append, List.append_assoc, List.singleton_append, List.nil_append]
  rw [parsePDMember]
  rw [if_pos rfl]
  rw [parseStringChars_flatMap]
  simp only []
  rw [skipWs_cons_not_ws (by decide)]
  simp only [if_true, ite_true, if_false, ite_false]
  rw [hacc]
  simp only [Option.isSome_none, Bool.false_eq_true, if_false]
  rw [skipWs_cons_not_ws (by decide)]
  simp only [if_true, ite_true]
  rw [parseStringChars_flatMap]
  rfl

theorem skipWs_jsonStr (k rest : List Char) :
    skipWs (jsonStr k ++ rest) = jsonStr k ++ rest := by
  unfold jsonStr
  rw [List.cons_append]
  exact skipWs_cons_not_ws (by decide) _

theorem skipWs_natDecimal (v : Nat) (after : List Char) :
    skipWs (natDecimal v ++ after) = natDecimal v ++ after := by
  cases hl : natDecimal v with
  | nil => exact absurd hl (natDecimal_ne_nil v)
  | cons d ds =>
    have hd := natDecimal_all_digit v d (by rw [hl]; simp)
    rw [List.cons_append]
    apply skipWs_cons_not_ws
    have h1 : ¬(d = ' ') := char_ne_of_toNat_ne (by
      rw [show (' ').toNat = 32 from rfl]; omega)
    have h2 : ¬(d = Char.ofNat 9) := char_ne_of_toNat_ne (by
      rw [show (Char.ofNat 9).toNat = 9 from rfl]; omega)
    have h3 : ¬(d = Char.ofNat 10) := char_ne_of_toNat_ne (by
      rw [show (Char.ofNat 10).toNat = 10 from rfl]; omega)
    have h4 : ¬(d = Char.ofNat 13) := char_ne_of_toNat_ne (by
      rw [show (Char.ofNat 13).toNat = 13 from rfl]; omega)
    simp [h1, h2, h3, h4]

theorem parsePDMember_status (acc : PDPartial) (hacc : acc.st = none) (v : Nat)
    (hv : v < 65536) (after : List Char)
    (hafter : ∀ c, after.head? = some c → isDigitChar c = false) :
    parsePDMember acc (jsonStr "status".data ++ (':' :: (natDecimal v ++ after))) =
      some ({ acc with st := some v }, after) := by
  unfold jsonStr
  simp only [List.cons_append, List.append_assoc, List.singleton_append, List.nil_append]
  rw [parsePDMember]
  rw [if_pos rfl]
  rw [parseStringChars_flatMap]
  simp only []
  rw [skipWs_cons_not_ws (by decide)]
  simp only [if_true, ite_true, if_false, ite_false]
  rw [hacc]
  simp only [Option.isSome_none, Bool.false_eq_true, if_false]
  rw [skipWs_natDecimal]
  rw [parseNatChars_natDecimal v after hafter]
  simp only []
  rw [if_pos hv]
  rw [if_neg (show ¬((['s','t','a','t','u','s'] : List Char) = ['t','y','p','e']) from by decide),
    if_neg (show ¬((['s','t','a','t','u','s'] : List Char) = ['t','i','t','l','e']) from by decide)]

theorem parsePDMember_detail (acc : PDPartial) (hacc : acc.de = none) (v after : List Char) :
    parsePDMember acc (jsonStr "detail".data ++ (':' :: (jsonStr v ++ after))) =
      some ({ acc with de := some v }, after) := by
  unfold jsonStr
  simp only [List.cons_append, List.append_assoc, List.singleton_append, List.nil_append]
  rw [parsePDMember]
  rw [if_pos rfl]
  rw [parseStringChars_flatMap]
  simp only []
  rw [skipWs_cons_not_ws (by decide)]
  simp only [if_true, ite_true, if_false, ite_false]
  rw [hacc]
  simp only [Option.isSome_none, Bool.false_eq_true, if_false]
  rw [skipWs_cons_not_ws (by decide)]
  simp only [if_true, ite_true]
  rw [parseStringChars_flatMap]
  rfl

theorem parsePDMember_instance (acc : PDPartial) (hacc : acc.inst = none)
    (v after : List Char) :
    parsePDMember acc (jsonStr "instance".data ++ (':' :: (jsonStr v ++ after))) =
      some ({ acc with inst := some v }, after) := by
  unfold jsonStr
  simp only [List.cons_append, List.append_assoc, List.singleton_append, List.nil_append]
  rw [parsePDMember]
  rw [if_pos rfl]
  rw [parseStringChars_flatMap]
  simp only []
  rw [skipWs_cons_not_ws (by decide)]
  simp only [if_true, ite_true, if_false, ite_false]
  rw [hacc]
  simp only [Option.isSome_none, Bool.false_eq_true, if_false]
  rw [skipWs_cons_not_ws (by decide)]
  simp only [if_true, ite_true]
  rw [parseStringChars_flatMap]
  rfl

-- ===========================================================================
-- C8: Problem Details serialize-parse round trip
-- ===========================================================================

theorem parsePDFields_five (f : Nat) (ty ti de inst : List Char) (st : Nat)
    (hst : st < 65536) :
    parsePDFields (f + 5) {}
      (jsonStr "type".data ++ (':' :: (jsonStr ty ++
       (',' :: (jsonStr "title".data ++ (':' :: (jsonStr ti ++
       (',' :: (jsonStr "status".data ++ (':' :: (natDecimal st ++
       (',' :: (jsonStr "detail".data ++ (':' :: (jsonStr de ++
       (',' :: (jsonStr "instance".data ++ (':' :: (jsonStr inst ++
       [Char.ofNat 125]))))))))))))))))))) =
      some ({ ty := some ty, ti := some ti, st := some st, de := some de,
              inst := some inst }, []) := by
  rw [show f + 5 = (f + 4) + 1 from rfl, parsePDFields]
  rw [skipWs_jsonStr]
  rw [parsePDMember_type _ rfl]
  simp only []
  rw [skipWs_cons_not_ws (by decide)]
  simp only []
  rw [show f + 4 = (f + 3) + 1 from rfl, parsePDFields]
  rw [skipWs_jsonStr]
  rw [parsePDMember_title _ rfl]
  simp only []
  rw [skipWs_cons_not_ws (by decide)]
  simp only []
  rw [show f + 3 = (f + 2) + 1 from rfl, parsePDFields]
  rw [skipWs_jsonStr]
  rw [parsePDMember_status _ rfl st hst _ (by intro c hc; injection hc with hc; rw [← hc]; decide)]
  simp only []
  rw [skipWs_cons_not_ws (by decide)]
  simp only []
  rw [show f + 2 = (f + 1) + 1 from rfl, parsePDFields]
  rw [skipWs_jsonStr]
  rw [parsePDMember_detail _ rfl]
  simp only []
  rw [skipWs_cons_not_ws (by decide)]
  simp only []
  rw [show f + 1 = f + 1 from rfl, parsePDFields]
  rw [skipWs_jsonStr]
  rw [parsePDMember_instance _ rfl]
  simp only []
  rw [skipWs_cons_not_ws (by decide)]
  simp

/-- C8.  For every `ProblemDetails` value (whose status fits in a `u16`, as
the Rust field type enforces), serializing it to JSON with
`problemDetailsToJson` — which writes the `error_type` field under the JSON
key `"type"` per the serde rename, and the fields `title`, `status`,
`detail`, `instance` under their own names — and parsing that JSON back with
`parseProblemDetails` yields an equal `ProblemDetails` value. -/
theorem c8_problem_details_roundtrip (pd : ProblemDetails) (h : pd.status < 65536) :
    parseProblemDetails (problemDetailsToJson pd) = some pd := by
  obtain ⟨ty, ti, st, de, inst⟩ := pd
  simp only [] at h
  rw [show problemDetailsToJson ⟨ty, ti, st, de, inst⟩ =
    String.mk (Char.ofNat 123 :: (jsonStr "type".data ++ (':' :: (jsonStr ty.data ++
      (',' :: (jsonStr "title".data ++ (':' :: (jsonStr ti.data ++
      (',' :: (jsonStr "status".data ++ (':' :: (natDecimal st ++
      (',' :: (jsonStr "detail".data ++ (':' :: (jsonStr de.data ++
      (',' :: (jsonStr "instance".data ++ (':' :: (jsonStr inst.data ++
      [Char.ofNat 125])))))))))))))))))))) from by
    simp only [problemDetailsToJson, pdToJsonChars, List.append_assoc, List.cons_append]]
  rw [parseProblemDetails]
  simp only []
  rw [skipWs_cons_not_ws (by decide)]
  simp only [if_true, ite_true]
  rw [parsePDFields_five _ ty.data ti.data de.data inst.data st h]
  simp only []
  rw [if_pos (show skipWs [] = ([] : List Char) from rfl)]

/-- C8 witness: the round trip at a concrete Problem Details value,
including characters that require JSON escaping in `detail`. -/
theorem c8_problem_details_roundtrip_witness :
    parseProblemDetails (problemDetailsToJson
      { error_type := "gts.x.core.errors.err.v1~x.oagw.validation.error.v1",
        title := "Validation Error", status := 400,
        detail := "missing required field \"server\"",
        instance_ := "/oagw/v1/upstreams" }) =
      some
      { error_type := "gts.x.core.errors.err.v1~x.oagw.validation.error.v1",
        title := "Validation Error", status := 400,
        detail := "missing required field \"server\"",
        instance_ := "/oagw/v1/upstreams" } :=
  c8_problem_details_roundtrip _ (by decide)

/-- C2 witness: the theorem applied at a concrete rate-limit error with
`retry_after_secs = Some 30`, discharging the Retry-After direction with a
concrete witness. -/
theorem c2_error_response_headers_witness :
    headerGet (error_response (.RateLimitExceeded "d" "/i" (some 30))).headers
      "retry-after" = some (natToString 30) ∧
    headerGet (error_response (.RateLimitExceeded "d" "/i" (some 30))).headers
      "content-type" = some "application/problem+json" := by
  have h := c2_error_response_headers (.RateLimitExceeded "d" "/i" (some 30))
  exact ⟨(h.2.2 30).mpr ⟨"d", "/i", rfl⟩, h.1⟩

end Oagw
